import Mathlib

/-!
# Verification of `pdfmerge.py`

A shallow embedding of the page-range parser (`parse_range`), the range
resolver (`page_indices`) and the merge driver loop (`main`) of the
`pdfmerge` tool, together with proofs of the specified properties.

Strings are handled through their underlying character lists.  Python's
builtin `int(...)` is modelled by `pyInt` (optional surrounding whitespace,
optional sign, a nonempty run of decimal digits; underscore digit grouping
is not modelled, it is irrelevant to every property considered here).
-/

namespace Pdfmerge

/-- Python `str.strip()`: drop whitespace from both ends of a character list. -/
def pyStrip (s : List Char) : List Char :=
  ((s.dropWhile Char.isWhitespace).reverse.dropWhile Char.isWhitespace).reverse

/-- The numeric value of a nonempty all-digit character list, `none` otherwise. -/
def digitsToNat : List Char → Option Nat
  | [] => none
  | ds =>
    if ds.all Char.isDigit then
      some (ds.foldl (fun acc c => 10 * acc + (c.toNat - '0'.toNat)) 0)
    else none

/-- Python `int(s)` on a string: strip whitespace, optional single sign,
then a nonempty run of decimal digits; `none` models a raised `ValueError`. -/
def pyInt (s : List Char) : Option Int :=
  match pyStrip s with
  | '-' :: ds => (digitsToNat ds).map (fun n => -(n : Int))
  | '+' :: ds => (digitsToNat ds).map (fun n => (n : Int))
  | ds => (digitsToNat ds).map (fun n => (n : Int))

/-- Python `s.split(sep)` for a single-character separator: the pieces of the
list between occurrences of `sep`; the empty list yields one empty piece. -/
def splitOnChar (sep : Char) : List Char → List (List Char)
  | [] => [[]]
  | c :: cs =>
    match splitOnChar sep cs with
    | [] => [[]]
    | h :: t => if c = sep then [] :: h :: t else (c :: h) :: t

/-- `os.path.basename`: the part of a path after the last slash. -/
def pyBasename (s : String) : String :=
  ⟨((s.toList.reverse.takeWhile (fun c => c ≠ '/')).reverse)⟩

/-- One interval of a range specification, as produced by `parse_range`:
optional 1-based start and end bounds (`none` = open). -/
abbrev Interval := Option Int × Option Int

/-- The body of `parse_range`'s loop for one nonempty stripped token:
a token containing a dash is split at the first dash, each nonempty side is
parsed with `int`; a dashless token `N` becomes `(N, N)`.  `Except.error`
models the uncaught `ValueError` (`InvalidRangeError`). -/
def parseToken (tok : List Char) : Except Unit Interval :=
  if tok.contains '-' then
    let a := tok.takeWhile (fun c => c ≠ '-')
    let b := (tok.dropWhile (fun c => c ≠ '-')).tail
    match a, pyInt a with
    | [], _ => match b, pyInt b with
      | [], _ => .ok (none, none)
      | _ :: _, some m => .ok (none, some m)
      | _ :: _, none => .error ()
    | _ :: _, some n =>
      match b, pyInt b with
      | [], _ => .ok (some n, none)
      | _ :: _, some m => .ok (some n, some m)
      | _ :: _, none => .error ()
    | _ :: _, none => .error ()
  else
    match pyInt tok with
    | some n => .ok (some n, some n)
    | none => .error ()

/-- `parse_range`'s loop over the comma-separated tokens: strip each token,
skip empty tokens, parse the rest in order. -/
def parseTokens : List (List Char) → Except Unit (List Interval)
  | [] => .ok []
  | t :: ts =>
    let tok := pyStrip t
    if tok = [] then parseTokens ts
    else
      match parseToken tok with
      | .error e => .error e
      | .ok iv =>
        match parseTokens ts with
        | .error e => .error e
        | .ok ivs => .ok (iv :: ivs)

/-- `parse_range(spec)` from `pdfmerge.py`. -/
def parse_range (spec : String) : Except Unit (List Interval) :=
  parseTokens (splitOnChar ',' spec.toList)

/-- The indices contributed by one interval inside `page_indices`'s loop:
substitute `None` bounds, clamp, and emit the 0-based indices
`s0-1 .. e0-1` when `s0 ≤ e0`, nothing otherwise. -/
def intervalIndices (s e : Option Int) (total : Nat) : List Nat :=
  let s0 : Int := max 1 (s.getD 1)
  let e0 : Int := min (total : Int) (e.getD (total : Int))
  if s0 ≤ e0 then
    (List.range (e0 + 1 - s0).toNat).map (fun k => (s0 - 1).toNat + k)
  else []

/-- The deduplication loop of `page_indices`: keep the first occurrence of
each index, tracking the set of indices already seen. -/
def dedupKeep (seen : List Nat) : List Nat → List Nat
  | [] => []
  | i :: rest =>
    if i ∈ seen then dedupKeep seen rest
    else i :: dedupKeep (i :: seen) rest

/-- `page_indices(ranges, total)` from `pdfmerge.py`: the full document for an
empty interval list, otherwise the per-interval emissions concatenated in
order and deduplicated keeping first occurrences. -/
def page_indices (ranges : List Interval) (total : Nat) : List Nat :=
  match ranges with
  | [] => List.range total
  | _ => dedupKeep [] (ranges.flatMap (fun p => intervalIndices p.1 p.2 total))

/-! ## The merge driver

The driver loop of `main` is modelled over an abstract view of a PDF file
(`InputFile`): path, existence on disk, page count, and whether the file is
encrypted and whether `reader.decrypt("")` succeeds.  The output accumulator
(`MergeState`) records the appended pages as `(source path, source page
index)` pairs, the bookmark list as `(label, output offset)` pairs, and the
lines printed to the terminal.  A run returns `Except.error code` for
`sys.exit(code)`; the uncaught `InvalidRangeError` that kills the process is
modelled as exit code 1 as well.  Metadata handling and the final byte-level
serialization touch no state the properties below mention and are left out
of the model; in particular the output file is written only after the loop
returns normally, so an `Except.error` run produces no output file. -/

/-- Abstract view of one input PDF file. -/
structure InputFile where
  path : String
  fileExists : Bool
  numPages : Nat
  encrypted : Bool
  emptyPwOk : Bool

/-- The output accumulator: appended pages, bookmarks, printed lines. -/
structure MergeState where
  pages : List (String × Nat)
  bookmarks : List (String × Nat)
  log : List String

/-- Command-line arguments of `main` (metadata omitted, see above). -/
structure Args where
  inputs : List InputFile
  range : List String
  output : String
  bookmarks : Bool
  excludeEncrypted : Bool
  quiet : Bool
  verbose : Bool

/-- `rng = parse_range(r) if r else []`: `None` and the empty string are
falsy, so both bypass the parser. -/
def effRange (r : Option String) : Except Unit (List Interval) :=
  match r with
  | none => .ok []
  | some s => if s = "" then .ok [] else parse_range s

/-- `rs = r or "ALL"` in the verbose branch. -/
def rangeDisplay (r : Option String) : String :=
  match r with
  | none => "ALL"
  | some s => if s = "" then "ALL" else s

/-- The line printed per input when `--verbose` is set. -/
def verboseLine (path : String) (count : Nat) (rs : String) : String :=
  path ++ ": " ++ toString count ++ " pages (range=" ++ rs ++ ")"

/-- One iteration of `main`'s loop over `zip(args.inputs, ranges)`:
existence check, empty-password decryption attempt (skip or abort on
failure), range resolution, page append, optional bookmark. -/
def processInput (a : Args) (st : MergeState) (inp : InputFile) (r : Option String) :
    Except Nat MergeState :=
  if !inp.fileExists then .error 1
  else if inp.encrypted && !inp.emptyPwOk then
    if a.excludeEncrypted then
      .ok { st with
        log := st.log ++ (if a.quiet then [] else ["Skipping encrypted: " ++ inp.path]) }
    else .error 1
  else
    let total := inp.numPages
    match effRange r with
    | .error _ => .error 1
    | .ok rng =>
      let indices := page_indices rng total
      let log1 := st.log ++
        (if a.verbose then
          [verboseLine inp.path (if !rng.isEmpty then indices.length else total) (rangeDisplay r)]
        else [])
      let added := if !rng.isEmpty then indices.map (fun i => (inp.path, i))
        else (List.range total).map (fun i => (inp.path, i))
      let pages1 := st.pages ++ added
      let bms1 :=
        if a.bookmarks then
          st.bookmarks ++
            [(pyBasename inp.path, pages1.length - (if !rng.isEmpty then indices.length else total))]
        else st.bookmarks
      .ok { pages := pages1, bookmarks := bms1, log := log1 }

/-- `main`'s loop over the input/range pairs, stopping at the first fatal
error. -/
def runLoop (a : Args) (st : MergeState) : List (InputFile × Option String) → Except Nat MergeState
  | [] => .ok st
  | (inp, r) :: rest =>
    match processInput a st inp r with
    | .error c => .error c
    | .ok st1 => runLoop a st1 rest

/-- Normalization of `args.range` against the inputs: absent means one `None`
per input, a single spec is broadcast, otherwise the list is positional. -/
def normalizeRanges (a : Args) : List (Option String) :=
  if a.range.isEmpty then a.inputs.map (fun _ => none)
  else if a.range.length = 1 then a.inputs.map (fun _ => a.range.head?)
  else a.range.map some

/-- `main` after argument parsing: range-count validation, then the merge
loop, then the final status line. -/
def main (a : Args) : Except Nat MergeState :=
  if !a.range.isEmpty && !(a.range.length = 1 || a.range.length = a.inputs.length) then
    .error 2
  else
    match runLoop a ⟨[], [], []⟩ (a.inputs.zip (normalizeRanges a)) with
    | .error c => .error c
    | .ok st => .ok { st with log := st.log ++ (if a.quiet then [] else ["Wrote " ++ a.output]) }

/-- Whether an Except result is an error. -/
def isErr {ε α : Type} : Except ε α → Bool
  | .error _ => true
  | .ok _ => false

/-- The spec's failure criterion for one stripped token: a non-dash token
fails iff it is not a valid integer; a dash token fails iff either side of
the first dash is non-empty and not a valid integer; empty tokens never
fail. -/
def tokenFails (tok : List Char) : Bool :=
  if tok = [] then false
  else if tok.contains '-' then
    let a := tok.takeWhile (fun c => c ≠ '-')
    let b := (tok.dropWhile (fun c => c ≠ '-')).tail
    (!a.isEmpty && (pyInt a).isNone) || (!b.isEmpty && (pyInt b).isNone)
  else (pyInt tok).isNone

/-- Number of pages the driver appends for one input/range pair: zero when
the input is skipped as encrypted, or when the run dies on an invalid range;
otherwise the resolved index count (the full page count without a range). -/
def pagesAdded (a : Args) (x : InputFile × Option String) : Nat :=
  if (x.1.encrypted && !x.1.emptyPwOk) && a.excludeEncrypted then 0
  else
    match effRange x.2 with
    | .error _ => 0
    | .ok rng => if !rng.isEmpty then (page_indices rng x.1.numPages).length else x.1.numPages

/-! Concrete fixtures used by witnesses: two ordinary files, an encrypted
file whose empty-password decryption fails, and a missing file. -/

def fileA : InputFile := ⟨"docs/A.pdf", true, 5, false, true⟩

def fileB : InputFile := ⟨"docs/B.pdf", true, 3, false, true⟩

def fileEnc : InputFile := ⟨"enc.pdf", true, 4, true, false⟩

def fileMissing : InputFile := ⟨"gone.pdf", false, 0, false, true⟩

def argsBk : Args := ⟨[], [], "out.pdf", true, false, false, false⟩

def argsEnc : Args := ⟨[fileEnc, fileB], [], "out.pdf", true, true, false, false⟩

/-! ## Resolver lemmas -/

theorem dedupKeep_subset {l : List Nat} {seen : List Nat} {i : Nat}
    (h : i ∈ dedupKeep seen l) : i ∈ l := by
  induction l generalizing seen with
  | nil => simp [dedupKeep] at h
  | cons a t ih =>
    unfold dedupKeep at h
    split at h
    · exact List.mem_cons_of_mem _ (ih h)
    · rcases List.mem_cons.mp h with rfl | h2
      · exact List.mem_cons_self _ _
      · exact List.mem_cons_of_mem _ (ih h2)

theorem emit_lt {s0 e0 : Int} {total i : Nat}
    (hs : 1 ≤ s0) (he : e0 ≤ (total : Int))
    (h : i ∈ (if s0 ≤ e0 then (List.range (e0 + 1 - s0).toNat).map (fun k => (s0 - 1).toNat + k)
      else ([] : List Nat))) :
    i < total := by
  by_cases hc : s0 ≤ e0
  · rw [if_pos hc] at h
    simp only [List.mem_map, List.mem_range] at h
    obtain ⟨k, hk, rfl⟩ := h
    omega
  · rw [if_neg hc] at h
    simp at h

theorem intervalIndices_lt {s e : Option Int} {total i : Nat}
    (h : i ∈ intervalIndices s e total) : i < total := by
  unfold intervalIndices at h
  exact emit_lt (le_max_left _ _) (min_le_left _ _) h

theorem page_indices_lt {rs : List Interval} {total i : Nat}
    (h : i ∈ page_indices rs total) : i < total := by
  unfold page_indices at h
  match rs, h with
  | [], h => exact List.mem_range.mp h
  | p :: ps, h =>
    have h2 := dedupKeep_subset h
    rw [List.mem_flatMap] at h2
    obtain ⟨q, _, hq⟩ := h2
    exact intervalIndices_lt hq

theorem intervalIndices_reversed (total : Nat) :
    intervalIndices (some 12) (some 8) total = [] := by
  simp only [intervalIndices, Option.getD_some]
  rw [if_neg]
  omega

theorem intervalIndices_none_none (total : Nat) :
    intervalIndices none none total = List.range total := by
  simp only [intervalIndices, Option.getD_none, max_self, min_self]
  by_cases h : (1 : Int) ≤ total
  · rw [if_pos (by omega)]
    have h1 : ((total : Int) + 1 - max 1 1).toNat = total := by omega
    have h2 : ((max 1 1 : Int) - 1).toNat = 0 := by decide
    simp [h1, h2]
  · rw [if_neg (by omega)]
    have : total = 0 := by omega
    simp [this]

theorem intervalIndices_nonpos {n : Int} (h : n ≤ 0) (total : Nat) :
    intervalIndices (some n) (some n) total = [] := by
  simp only [intervalIndices, Option.getD_some]
  rw [if_neg]
  have : min (total : Int) n ≤ n := min_le_right _ _
  omega

/-! ## Parser error lemmas -/

theorem parseToken_isErr (tok : List Char) (h : tok ≠ []) :
    isErr (parseToken tok) = tokenFails tok := by
  simp only [parseToken, tokenFails, if_neg h]
  split
  · generalize tok.takeWhile (fun c => c ≠ '-') = a
    generalize (tok.dropWhile (fun c => c ≠ '-')).tail = b
    rcases a with _ | ⟨x, xs⟩ <;> rcases b with _ | ⟨y, ys⟩
    · simp [isErr]
    · cases hib : pyInt (y :: ys) <;> simp [hib, isErr]
    · cases hia : pyInt (x :: xs) <;> simp [hia, isErr]
    · cases hia : pyInt (x :: xs) <;> cases hib : pyInt (y :: ys) <;>
        simp [hia, hib, isErr]
  · rcases hi : pyInt tok with _ | n <;> simp [hi, isErr]

theorem parseTokens_isErr (ts : List (List Char)) :
    isErr (parseTokens ts) = ts.any (fun t => tokenFails (pyStrip t)) := by
  induction ts with
  | nil => rfl
  | cons t ts ih =>
    unfold parseTokens
    by_cases h : pyStrip t = []
    · rw [if_pos h]
      simp [List.any_cons, h, tokenFails, ih]
    · rw [if_neg h]
      have hpe := parseToken_isErr (pyStrip t) h
      cases hp : parseToken (pyStrip t) with
      | error e =>
        rw [hp] at hpe
        simp [List.any_cons, ← hpe, isErr]
      | ok iv =>
        rw [hp] at hpe
        cases hr : parseTokens ts with
        | error e2 =>
          rw [hr] at ih
          simp [List.any_cons, ← hpe, ← ih, isErr]
        | ok ivs =>
          rw [hr] at ih
          simp [List.any_cons, ← hpe, ← ih, isErr]

/-! ## Driver lemmas -/

theorem processInput_pages (a : Args) (st : MergeState) (inp : InputFile) (r : Option String)
    (st' : MergeState) (h : processInput a st inp r = .ok st') :
    st'.pages.length = st.pages.length + pagesAdded a (inp, r) := by
  by_cases hex : inp.fileExists = true
  case neg =>
    rw [Bool.not_eq_true] at hex
    simp [processInput, hex] at h
  by_cases henc : (inp.encrypted && !inp.emptyPwOk) = true
  · by_cases hexc : a.excludeEncrypted = true
    · simp only [processInput, hex, henc, hexc, Bool.not_true, Bool.false_eq_true, if_false,
        if_true, Except.ok.injEq] at h
      subst h
      simp [pagesAdded, henc, hexc]
    · rw [Bool.not_eq_true] at hexc
      simp [processInput, hex, henc, hexc] at h
  · rw [Bool.not_eq_true] at henc
    cases hE : effRange r with
    | error e => simp [processInput, hex, henc, hE] at h
    | ok rng =>
      by_cases hrng : rng.isEmpty = true
      · simp only [processInput, hex, henc, hE, hrng, Bool.not_true, Bool.not_false,
          Bool.false_eq_true, if_false, if_true, Except.ok.injEq] at h
        subst h
        simp [pagesAdded, henc, hE, hrng]
      · rw [Bool.not_eq_true] at hrng
        simp only [processInput, hex, henc, hE, hrng, Bool.not_true, Bool.not_false,
          Bool.false_eq_true, if_false, if_true, Except.ok.injEq] at h
        subst h
        simp [pagesAdded, henc, hE, hrng]

theorem runLoop_pages (a : Args) (st : MergeState) (l : List (InputFile × Option String))
    (st' : MergeState) (h : runLoop a st l = .ok st') :
    st'.pages.length = st.pages.length + (l.map (pagesAdded a)).sum := by
  induction l generalizing st with
  | nil =>
    obtain rfl := Except.ok.inj h
    simp
  | cons x xs ih =>
    obtain ⟨inp, r⟩ := x
    unfold runLoop at h
    cases hp : processInput a st inp r with
    | error c => rw [hp] at h; cases h
    | ok st1 =>
      rw [hp] at h
      have h1 := processInput_pages a st inp r st1 hp
      have h2 := ih st1 h
      simp only [List.map_cons, List.sum_cons]
      omega

/-! ## The claims -/

/-- Claim C1: for the range specification string `"1,3,8-12,-5,7-"`,
`parse_range` returns exactly `[(1,1),(3,3),(8,12),(None,5),(7,None)]`, and
resolving those intervals against a 20-page document with `page_indices`
yields `[0,2,7,8,9,10,11,1,3,4,6,12,...,19]`: the union of `{0,2}` and
`{6..19}` in traversal order, each index once, first-seen position winning. -/
theorem example_spec_parse_and_resolve :
    parse_range "1,3,8-12,-5,7-" =
      .ok [(some 1, some 1), (some 3, some 3), (some 8, some 12), (none, some 5), (some 7, none)] ∧
    page_indices
      [(some 1, some 1), (some 3, some 3), (some 8, some 12), (none, some 5), (some 7, none)] 20 =
      [0, 2, 7, 8, 9, 10, 11, 1, 3, 4, 6, 12, 13, 14, 15, 16, 17, 18, 19] :=
  ⟨rfl, rfl⟩

/-- Claim C2: when a supplied range spec parses to at least one interval but
resolves to zero indices against the input's page count, the driver appends
zero pages, and with bookmarking enabled it still records a bookmark whose
offset is the accumulator's current page count (a possibly-dangling
bookmark). -/
theorem empty_resolution_dangling_bookmark
    (a : Args) (st : MergeState) (inp : InputFile) (s : String) (rng : List Interval)
    (hex : inp.fileExists = true)
    (henc : (inp.encrypted && !inp.emptyPwOk) = false)
    (hs : s ≠ "")
    (hp : parse_range s = .ok rng)
    (hne : rng ≠ [])
    (hres : page_indices rng inp.numPages = []) :
    processInput a st inp (some s) =
      .ok { pages := st.pages,
            bookmarks :=
              if a.bookmarks then st.bookmarks ++ [(pyBasename inp.path, st.pages.length)]
              else st.bookmarks,
            log := st.log ++ (if a.verbose then [verboseLine inp.path 0 s] else []) } := by
  have hE : effRange (some s) = .ok rng := by simp [effRange, hs, hp]
  have hrng : rng.isEmpty = false := by
    cases rng with
    | nil => exact absurd rfl hne
    | cons p ps => rfl
  simp [processInput, hex, henc, hE, hrng, hres, rangeDisplay, hs]

theorem empty_resolution_dangling_bookmark_witness :
    processInput argsBk ⟨[("docs/A.pdf", 0)], [], []⟩ fileB (some "100-200") =
      .ok ⟨[("docs/A.pdf", 0)], [("B.pdf", 1)], []⟩ := by
  have := empty_resolution_dangling_bookmark argsBk ⟨[("docs/A.pdf", 0)], [], []⟩ fileB
    "100-200" [(some 100, some 200)] rfl rfl (by decide) rfl (by decide) rfl
  simpa using this

/-- Claim C3: with bookmarking enabled, every non-skipped input gets a
bookmark labelled with its base filename whose offset is the accumulator's
page count just before the input's pages were appended; in particular
merging a 5-page input with no range and then a 3-page input with a range
selecting 2 pages bookmarks them at output offsets 0 and 5. -/
theorem bookmark_label_and_offset :
    (∀ (a : Args) (st : MergeState) (inp : InputFile) (r : Option String)
        (rng : List Interval) (st' : MergeState),
        inp.fileExists = true →
        (inp.encrypted && !inp.emptyPwOk) = false →
        effRange r = .ok rng →
        a.bookmarks = true →
        processInput a st inp r = .ok st' →
        st'.bookmarks = st.bookmarks ++ [(pyBasename inp.path, st.pages.length)]) ∧
    runLoop argsBk ⟨[], [], []⟩ [(fileA, none), (fileB, some "1-2")] =
      .ok ⟨[("docs/A.pdf", 0), ("docs/A.pdf", 1), ("docs/A.pdf", 2), ("docs/A.pdf", 3),
            ("docs/A.pdf", 4), ("docs/B.pdf", 0), ("docs/B.pdf", 1)],
           [("A.pdf", 0), ("B.pdf", 5)], []⟩ := by
  constructor
  · intro a st inp r rng st' hex henc hE hbm hrun
    by_cases hrng : rng.isEmpty = true
    · simp only [processInput, hex, henc, hE, hbm, hrng, Bool.not_true, Bool.not_false,
        Bool.false_eq_true, if_false, if_true, Except.ok.injEq] at hrun
      subst hrun
      simp
    · rw [Bool.not_eq_true] at hrng
      simp only [processInput, hex, henc, hE, hbm, hrng, Bool.not_true, Bool.not_false,
        Bool.false_eq_true, if_false, if_true, Except.ok.injEq] at hrun
      subst hrun
      simp
  · rfl

theorem bookmark_label_and_offset_witness :
    (⟨[("docs/A.pdf", 0), ("docs/A.pdf", 1), ("docs/A.pdf", 2), ("docs/A.pdf", 3),
       ("docs/A.pdf", 4)], [("A.pdf", 0)], []⟩ : MergeState).bookmarks =
      ([] : List (String × Nat)) ++ [(pyBasename fileA.path, ([] : List (String × Nat)).length)] :=
  bookmark_label_and_offset.1 argsBk ⟨[], [], []⟩ fileA none [] _ rfl rfl rfl rfl rfl

/-- Claim C4: an input whose empty-password decryption fails while
exclude-encrypted mode is active is skipped whole: no pages, no bookmark, a
notice unless quiet, and the run continues and succeeds on the remaining
inputs. -/
theorem exclude_encrypted_skip :
    (∀ (a : Args) (st : MergeState) (inp : InputFile) (r : Option String),
        inp.fileExists = true → inp.encrypted = true → inp.emptyPwOk = false →
        a.excludeEncrypted = true →
        processInput a st inp r =
          .ok { st with
            log := st.log ++ (if a.quiet then [] else ["Skipping encrypted: " ++ inp.path]) }) ∧
    main argsEnc =
      .ok ⟨[("docs/B.pdf", 0), ("docs/B.pdf", 1), ("docs/B.pdf", 2)], [("B.pdf", 0)],
        ["Skipping encrypted: enc.pdf", "Wrote out.pdf"]⟩ := by
  constructor
  · intro a st inp r hex henc hpw hexc
    simp [processInput, hex, henc, hpw, hexc]
  · rfl

theorem exclude_encrypted_skip_witness :
    processInput argsEnc ⟨[], [], []⟩ fileEnc none =
      .ok { pages := [], bookmarks := [], log := ["Skipping encrypted: enc.pdf"] } := by
  have := exclude_encrypted_skip.1 argsEnc ⟨[], [], []⟩ fileEnc none rfl rfl rfl rfl
  simpa using this

/-- Claim C5: supplying a number of range specs other than zero, one, or the
number of inputs is a fatal configuration error: `main` exits with code 2
regardless of the inputs (so before any file is touched, and the output file
is never written, serialization being reached only on the `ok` path). -/
theorem range_count_validation (a : Args) (h1 : a.range ≠ [])
    (h2 : a.range.length ≠ 1) (h3 : a.range.length ≠ a.inputs.length) :
    main a = .error 2 := by
  have he : a.range.isEmpty = false := by
    cases hr : a.range with
    | nil => exact absurd hr h1
    | cons x xs => rfl
  simp [main, he, h2, h3]

theorem range_count_validation_witness :
    main ⟨[fileA, fileB, fileMissing], ["1", "2"], "out.pdf", false, false, false, false⟩ =
      .error 2 :=
  range_count_validation
    ⟨[fileA, fileB, fileMissing], ["1", "2"], "out.pdf", false, false, false, false⟩
    (by decide) (by decide) (by decide)

/-- Claim C6: resolving the empty interval list yields the whole document
`[0, ..., N-1]` for every page count `N`, and parsing the empty string
yields the empty interval list, so `resolve(parse(""), N) = resolve([], N)
= [0, ..., N-1]`. -/
theorem empty_spec_selects_all :
    parse_range "" = Except.ok [] ∧ ∀ N : Nat, page_indices [] N = List.range N :=
  ⟨rfl, fun _ => rfl⟩

/-- Claim C7: resolution never errors (the resolver is a total function and
every index it returns is a valid 0-based page index below `total`); a
reversed interval such as `(12, 8)` contributes no indices, an out-of-range
interval such as `(100, 200)` against 10 pages contributes no indices, and
the fully open interval `(None, None)` contributes all `total` indices. -/
theorem resolver_never_errors :
    (∀ total : Nat, intervalIndices (some 12) (some 8) total = []) ∧
    intervalIndices (some 100) (some 200) 10 = [] ∧
    (∀ total : Nat, intervalIndices none none total = List.range total) ∧
    ∀ (rs : List Interval) (total : Nat), ∀ i ∈ page_indices rs total, i < total :=
  ⟨intervalIndices_reversed, rfl, intervalIndices_none_none,
    fun _ _ _ h => page_indices_lt h⟩

theorem resolver_never_errors_witness :
    3 ∈ page_indices [(some 1, some 5)] 20 ∧ 3 < 20 :=
  ⟨by decide, resolver_never_errors.2.2.2 [(some 1, some 5)] 20 3 (by decide)⟩

/-- Claim C8: `parse_range` fails exactly when some comma-separated token,
after trimming and dash-splitting at the first dash, contains a non-empty
substring that is not a valid integer (`tokenFails`); on every other input
it returns an interval list without error. -/
theorem parse_error_characterization (spec : String) :
    isErr (parse_range spec) = true ↔
      ∃ t ∈ splitOnChar ',' spec.toList, tokenFails (pyStrip t) = true := by
  rw [show parse_range spec = parseTokens (splitOnChar ',' spec.toList) from rfl,
    parseTokens_isErr, List.any_eq_true]

theorem parse_error_characterization_witness :
    isErr (parse_range "1,x") = true :=
  (parse_error_characterization "1,x").mpr ⟨['x'], by decide, by decide⟩

/-- Claim C9: each processed input grows the output page count by exactly
the number of pages selected from it (`pagesAdded`: the resolved index count
when a range was supplied, the full page count when not, zero when the input
is skipped), so a completed loop's page count is the sum of the per-input
contributions. -/
theorem page_count_invariant :
    (∀ (a : Args) (st : MergeState) (inp : InputFile) (r : Option String) (st' : MergeState),
        processInput a st inp r = .ok st' →
        st'.pages.length = st.pages.length + pagesAdded a (inp, r)) ∧
    (∀ (a : Args) (st : MergeState) (l : List (InputFile × Option String)) (st' : MergeState),
        runLoop a st l = .ok st' →
        st'.pages.length = st.pages.length + (l.map (pagesAdded a)).sum) :=
  ⟨processInput_pages, runLoop_pages⟩

theorem page_count_invariant_witness :
    (7 : Nat) =
      0 + ([(fileA, (none : Option String)), (fileB, some "1-2")].map (pagesAdded argsBk)).sum :=
  page_count_invariant.2 argsBk ⟨[], [], []⟩ [(fileA, none), (fileB, some "1-2")]
    ⟨[("docs/A.pdf", 0), ("docs/A.pdf", 1), ("docs/A.pdf", 2), ("docs/A.pdf", 3),
      ("docs/A.pdf", 4), ("docs/B.pdf", 0), ("docs/B.pdf", 1)],
     [("A.pdf", 0), ("B.pdf", 5)], []⟩ rfl

/-- Claim C10: `parse_range` accepts non-positive single-number tokens
without error, `parse_range "0"` returning `[(0, 0)]`, and for every page
count a non-positive singleton interval resolves to no pages at all. -/
theorem nonpositive_token_selects_nothing :
    parse_range "0" = Except.ok [(some 0, some 0)] ∧
    ∀ (n : Int) (total : Nat), n ≤ 0 → page_indices [(some n, some n)] total = [] := by
  refine ⟨rfl, fun n total h => ?_⟩
  unfold page_indices
  simp [intervalIndices_nonpos h, dedupKeep]

theorem nonpositive_token_selects_nothing_witness :
    page_indices [(some 0, some 0)] 7 = [] ∧ page_indices [(some (-3), some (-3))] 7 = [] :=
  ⟨nonpositive_token_selects_nothing.2 0 7 (by decide),
   nonpositive_token_selects_nothing.2 (-3) 7 (by decide)⟩

end Pdfmerge
